import Mathlib

/-!
Shallow embedding of the Socket.io chat server in `src/server/server.js`.

The server keeps four JS-object stores keyed by socket id
(`users`, `typingUsers`, `userRooms`) plus a bounded message array
(`messages`).  JS objects keyed by strings are modelled as association
lists that keep insertion order (assignment to an existing key keeps its
position, a new key is appended, `delete` removes the entry), which is
exactly the enumeration order `Object.values` exposes.

Delivery (`io.emit`, `io.to(room)`, `socket.to(x)`, `socket.emit`) is
routed through socket.io room subscriptions, so the state also carries
the set of connected sockets and, per socket, the list of socket.io
rooms it is subscribed to (every socket is subscribed to the room named
by its own id from the moment it connects; `socket.join` adds a room,
`socket.leave` removes it).  `Date.now()` is modelled by an explicit
`now : Nat` argument to the two message handlers.
-/

namespace ChatServer

/-- A registered user, exactly as stored by `users[socket.id] = { username, id: socket.id }`. -/
structure User where
  username : String
  id : String
deriving DecidableEq

/-- A message as built by the `send_message` / `private_message` handlers.
`readBy` holds `users[socket.id]?.username` values, which may be `undefined`
(modelled as `none`) when the sender never registered.  `room` is absent
(`none`) on private messages.  `reactions` is the JS object
reactionSymbol -> array of usernames. -/
structure Message where
  id : Nat
  sender : String
  senderId : String
  message : String
  timestamp : Nat
  room : Option String
  isPrivate : Bool
  readBy : List (Option String)
  reactions : List (String × List String)
deriving DecidableEq

/-- Lookup in a string-keyed JS object modelled as an association list. -/
def lookupEntry {α : Type} (l : List (String × α)) (k : String) : Option α :=
  match l with
  | [] => none
  | (k1, v) :: rest => if k1 = k then some v else lookupEntry rest k

/-- Assignment `obj[k] = v`: overwrite in place if the key exists, else append. -/
def setEntry {α : Type} (l : List (String × α)) (k : String) (v : α) :
    List (String × α) :=
  match l with
  | [] => [(k, v)]
  | (k1, v1) :: rest => if k1 = k then (k1, v) :: rest else (k1, v1) :: setEntry rest k v

/-- Deletion `delete obj[k]`. -/
def removeEntry {α : Type} (l : List (String × α)) (k : String) :
    List (String × α) :=
  match l with
  | [] => []
  | (k1, v1) :: rest =>
      if k1 = k then removeEntry rest k else (k1, v1) :: removeEntry rest k

/-- Enumeration `Object.values(obj)` in insertion order. -/
def vals {α : Type} (l : List (String × α)) : List α :=
  l.map Prod.snd

/-- JS `a || b` on an optional string: an absent or empty (falsy) string
falls through to the default. -/
def jsOr (a : Option String) (b : String) : String :=
  match a with
  | some s => if s = "" then b else s
  | none => b

/-- The whole server state: the four stores of the source plus the
socket.io connection/subscription bookkeeping used for delivery. -/
structure ServerState where
  connected : List String
  users : List (String × User)
  messages : List Message
  typingUsers : List (String × String)
  userRooms : List (String × String)
  subs : List (String × List String)
deriving DecidableEq

/-- The empty server state (no sockets, all stores empty). -/
def initState : ServerState :=
  { connected := [], users := [], messages := [], typingUsers := [],
    userRooms := [], subs := [] }

/-- Where an outbound emit is addressed: `io.emit`, `io.to(room).emit`,
`socket.to(room).emit` (room minus the sending socket), `socket.emit`. -/
inductive EmitTarget where
  | all : EmitTarget
  | toRoom (room : String) : EmitTarget
  | socketTo (sender : String) (room : String) : EmitTarget
  | toSelf (sid : String) : EmitTarget
deriving DecidableEq

/-- The payloads the server emits. -/
inductive EmitPayload where
  | userList (l : List User) : EmitPayload
  | userJoined (username : String) (id : String) : EmitPayload
  | receiveMessage (m : Message) : EmitPayload
  | typingList (l : List String) : EmitPayload
  | privateMessage (m : Message) : EmitPayload
  | messageRead (messageId : Nat) (readBy : List (Option String)) : EmitPayload
  | messageReacted (messageId : Nat) (reactions : List (String × List String)) : EmitPayload
  | userLeft (username : String) (id : String) : EmitPayload
deriving DecidableEq

/-- One outbound notification. -/
abbrev Emit := EmitTarget × EmitPayload

/-- The socket.io rooms a socket is subscribed to. -/
def subsOf (s : ServerState) (c : String) : List String :=
  (lookupEntry s.subs c).getD []

/-- Which connected sockets actually receive an emit. -/
def resolveTargets (s : ServerState) : EmitTarget → List String
  | EmitTarget.all => s.connected
  | EmitTarget.toRoom r => s.connected.filter (fun c => decide (r ∈ subsOf s c))
  | EmitTarget.socketTo sender r =>
      s.connected.filter (fun c => decide (r ∈ subsOf s c) && decide (c ≠ sender))
  | EmitTarget.toSelf sid => s.connected.filter (fun c => decide (c = sid))

/-- socket.io `socket.join(r)`: add the room to the socket's set. -/
def joinSub (subs : List (String × List String)) (c r : String) :
    List (String × List String) :=
  let cur := (lookupEntry subs c).getD []
  if r ∈ cur then subs else setEntry subs c (cur ++ [r])

/-- socket.io `socket.leave(r)`: remove the room from the socket's set. -/
def leaveSub (subs : List (String × List String)) (c r : String) :
    List (String × List String) :=
  setEntry subs c (((lookupEntry subs c).getD []).erase r)

/-- A socket connects: it is subscribed to the room named by its own id. -/
def handleConnect (s : ServerState) (sid : String) : ServerState × List Emit :=
  ({ s with connected := s.connected ++ [sid], subs := setEntry s.subs sid [sid] }, [])

/-- The `user_join` handler: store the user, default the room to "General",
join the socket.io room, broadcast the user list and a join announcement. -/
def handleUserJoin (s : ServerState) (sid username : String) :
    ServerState × List Emit :=
  let users1 := setEntry s.users sid { username := username, id := sid }
  let userRooms1 := setEntry s.userRooms sid "General"
  let subs1 := joinSub s.subs sid "General"
  ({ s with users := users1, userRooms := userRooms1, subs := subs1 },
   [(EmitTarget.all, EmitPayload.userList (vals users1)),
    (EmitTarget.all, EmitPayload.userJoined username sid)])

/-- The `join_room` handler: leave the previous room (when truthy), join the
new one, record the membership. -/
def handleJoinRoom (s : ServerState) (sid room : String) :
    ServerState × List Emit :=
  let subs1 :=
    match lookupEntry s.userRooms sid with
    | some p => if p = "" then s.subs else leaveSub s.subs sid p
    | none => s.subs
  ({ s with subs := joinSub subs1 sid room,
            userRooms := setEntry s.userRooms sid room }, [])

/-- The ledger append used by both message handlers:
`messages.push(m); if (messages.length > 100) messages.shift();`. -/
def pushBounded (l : List Message) (m : Message) : List Message :=
  let l1 := l ++ [m]
  if l1.length > 100 then l1.tail else l1

/-- `messages.find((m) => m.id === messageId)`. -/
def findMsg (l : List Message) (mid : Nat) : Option Message :=
  l.find? (fun m => decide (m.id = mid))

/-- In-place mutation of the message `find` returned: rewrite the first
element whose id matches. -/
def updateFirst (l : List Message) (mid : Nat) (f : Message → Message) :
    List Message :=
  match l with
  | [] => []
  | m :: rest => if m.id = mid then f m :: rest else m :: updateFirst rest mid f

/-- Room resolution of `send_message`:
`messageData.room || userRooms[socket.id] || 'General'`. -/
def sendRoom (s : ServerState) (sid : String) (roomArg : Option String) : String :=
  jsOr roomArg (jsOr (lookupEntry s.userRooms sid) "General")

/-- The message object `send_message` builds. -/
def sendMsgObj (s : ServerState) (sid msgText : String) (roomArg : Option String)
    (now : Nat) : Message :=
  { id := now
    sender := jsOr ((lookupEntry s.users sid).map User.username) "Anonymous"
    senderId := sid
    message := msgText
    timestamp := now
    room := some (sendRoom s sid roomArg)
    isPrivate := false
    readBy := [(lookupEntry s.users sid).map User.username]
    reactions := [] }

/-- The `send_message` handler: build the message, append it to the bounded
ledger, emit it to the resolved room. -/
def handleSendMessage (s : ServerState) (sid msgText : String)
    (roomArg : Option String) (now : Nat) : ServerState × List Emit :=
  let msg := sendMsgObj s sid msgText roomArg now
  ({ s with messages := pushBounded s.messages msg },
   [(EmitTarget.toRoom (sendRoom s sid roomArg), EmitPayload.receiveMessage msg)])

/-- The `typing` handler: only registered users mutate the typing store;
the whole typing set is then broadcast globally. -/
def handleTyping (s : ServerState) (sid : String) (isTyping : Bool) :
    ServerState × List Emit :=
  match lookupEntry s.users sid with
  | none => (s, [])
  | some u =>
      let typing1 :=
        if isTyping then setEntry s.typingUsers sid u.username
        else removeEntry s.typingUsers sid
      ({ s with typingUsers := typing1 },
       [(EmitTarget.all, EmitPayload.typingList (vals typing1))])

/-- The message object `private_message` builds.  Note the recipient id is
not stored on the message; only `isPrivate` is set. -/
def privMsgObj (s : ServerState) (sid msgText : String) (now : Nat) : Message :=
  { id := now
    sender := jsOr ((lookupEntry s.users sid).map User.username) "Anonymous"
    senderId := sid
    message := msgText
    timestamp := now
    room := none
    isPrivate := true
    readBy := [(lookupEntry s.users sid).map User.username]
    reactions := [] }

/-- The `private_message` handler: emit to the room named by the recipient
id (minus the sender), echo to the sender, append to the bounded ledger. -/
def handlePrivateMessage (s : ServerState) (sid toId msgText : String) (now : Nat) :
    ServerState × List Emit :=
  let msg := privMsgObj s sid msgText now
  ({ s with messages := pushBounded s.messages msg },
   [(EmitTarget.socketTo sid toId, EmitPayload.privateMessage msg),
    (EmitTarget.toSelf sid, EmitPayload.privateMessage msg)])

/-- The `read_message` handler: if the message exists, the reader is
registered (with a truthy username) and has not yet read it, append the
reader to `readBy` and notify the sender (private) or the room. -/
def handleReadMessage (s : ServerState) (sid : String) (messageId : Nat) :
    ServerState × List Emit :=
  match findMsg s.messages messageId, (lookupEntry s.users sid).map User.username with
  | some msg, some u =>
      if u = "" then (s, [])
      else if some u ∈ msg.readBy then (s, [])
      else
        let readBy1 := msg.readBy ++ [some u]
        let s1 := { s with messages := (updateFirst s.messages messageId
                     (fun m => { m with readBy := m.readBy ++ [some u] })) }
        if msg.isPrivate then
          (s1, [(EmitTarget.toRoom msg.senderId, EmitPayload.messageRead messageId readBy1)])
        else
          match msg.room with
          | some r =>
              if r = "" then (s1, [])
              else (s1, [(EmitTarget.toRoom r, EmitPayload.messageRead messageId readBy1)])
          | none => (s1, [])
  | _, _ => (s, [])

/-- The reaction-map update of `react_message`: ensure the key exists, then
append the username only if absent. -/
def reactUpdate (reactions : List (String × List String)) (reaction username : String) :
    List (String × List String) :=
  let cur := (lookupEntry reactions reaction).getD []
  setEntry reactions reaction (if username ∈ cur then cur else cur ++ [username])

/-- The `react_message` handler: if the message exists, update its reaction
map and notify the sender (private), the room (room message), or everyone. -/
def handleReactMessage (s : ServerState) (sid : String) (messageId : Nat)
    (reaction username : String) : ServerState × List Emit :=
  match findMsg s.messages messageId with
  | none => (s, [])
  | some msg =>
      let reactions1 := reactUpdate msg.reactions reaction username
      let s1 := { s with messages := (updateFirst s.messages messageId
                   (fun m => { m with reactions := reactUpdate m.reactions reaction username })) }
      if msg.isPrivate then
        (s1, [(EmitTarget.toRoom msg.senderId,
               EmitPayload.messageReacted messageId reactions1)])
      else
        match msg.room with
        | some r =>
            if r = "" then
              (s1, [(EmitTarget.all, EmitPayload.messageReacted messageId reactions1)])
            else
              (s1, [(EmitTarget.toRoom r, EmitPayload.messageReacted messageId reactions1)])
        | none => (s1, [(EmitTarget.all, EmitPayload.messageReacted messageId reactions1)])

/-- The `disconnect` handler: announce the leave (when registered), delete
the socket from every store, broadcast the remaining user list and typing
set; socket.io also drops the socket and its subscriptions. -/
def handleDisconnect (s : ServerState) (sid : String) : ServerState × List Emit :=
  let leftEmit :=
    match lookupEntry s.users sid with
    | some u => [(EmitTarget.all, EmitPayload.userLeft u.username sid)]
    | none => []
  let users1 := removeEntry s.users sid
  let typing1 := removeEntry s.typingUsers sid
  ({ s with connected := s.connected.filter (fun c => decide (c ≠ sid)),
            users := users1,
            typingUsers := typing1,
            userRooms := removeEntry s.userRooms sid,
            subs := removeEntry s.subs sid },
   leftEmit ++ [(EmitTarget.all, EmitPayload.userList (vals users1)),
                (EmitTarget.all, EmitPayload.typingList (vals typing1))])

/-- An inbound event, tagged with the socket it arrives on. -/
inductive Event where
  | connect (sid : String) : Event
  | userJoin (sid username : String) : Event
  | joinRoom (sid room : String) : Event
  | sendMessage (sid msgText : String) (room : Option String) (now : Nat) : Event
  | typing (sid : String) (isTyping : Bool) : Event
  | privateMessage (sid toId msgText : String) (now : Nat) : Event
  | readMessage (sid : String) (messageId : Nat) : Event
  | reactMessage (sid : String) (messageId : Nat) (reaction username : String) : Event
  | disconnect (sid : String) : Event
deriving DecidableEq

/-- The socket an event arrives on. -/
def Event.src : Event → String
  | Event.connect sid => sid
  | Event.userJoin sid _ => sid
  | Event.joinRoom sid _ => sid
  | Event.sendMessage sid _ _ _ => sid
  | Event.typing sid _ => sid
  | Event.privateMessage sid _ _ _ => sid
  | Event.readMessage sid _ => sid
  | Event.reactMessage sid _ _ _ => sid
  | Event.disconnect sid => sid

/-- Dispatch one event to its handler. -/
def step (s : ServerState) (e : Event) : ServerState × List Emit :=
  match e with
  | Event.connect sid => handleConnect s sid
  | Event.userJoin sid username => handleUserJoin s sid username
  | Event.joinRoom sid room => handleJoinRoom s sid room
  | Event.sendMessage sid msgText room now => handleSendMessage s sid msgText room now
  | Event.typing sid isTyping => handleTyping s sid isTyping
  | Event.privateMessage sid toId msgText now => handlePrivateMessage s sid toId msgText now
  | Event.readMessage sid messageId => handleReadMessage s sid messageId
  | Event.reactMessage sid messageId reaction username =>
      handleReactMessage s sid messageId reaction username
  | Event.disconnect sid => handleDisconnect s sid

/-- Run a sequence of events, keeping only the resulting state. -/
def run (s : ServerState) (es : List Event) : ServerState :=
  es.foldl (fun s e => (step s e).1) s

/-- The canonical socket.io subscription set of a socket: its own id room
plus its current membership room, as produced by the join handlers. -/
def canonSubs (s : ServerState) (c : String) : List String :=
  match lookupEntry s.userRooms c with
  | some r => [c, r]
  | none => [c]

/-- The state where every connected socket's subscription set is canonical,
as holds whenever each connection registered at most once before switching
rooms. -/
def Synced (s : ServerState) : Prop :=
  ∀ c ∈ s.connected, subsOf s c = canonSubs s c

/-- Every stored user object carries the socket id it is keyed under, as
`user_join` guarantees. -/
def WFUsers (s : ServerState) : Prop :=
  ∀ p ∈ s.users, (Prod.snd p).id = Prod.fst p

/-- Applying the `read_message` handler twice from the same socket. -/
def readTwice (s : ServerState) (sid : String) (mid : Nat) : ServerState :=
  (handleReadMessage (handleReadMessage s sid mid).1 sid mid).1

/-- Applying the `react_message` handler twice with the same payload. -/
def reactTwice (s : ServerState) (sid : String) (mid : Nat)
    (reaction username : String) : ServerState :=
  (handleReactMessage (handleReactMessage s sid mid reaction username).1
    sid mid reaction username).1

theorem lookupEntry_setEntry_self {α : Type} (l : List (String × α)) (k : String)
    (v : α) : lookupEntry (setEntry l k v) k = some v := by
  induction l with
  | nil => simp [setEntry, lookupEntry]
  | cons p rest ih =>
      obtain ⟨k1, v1⟩ := p
      by_cases h : k1 = k
      · simp [setEntry, lookupEntry, h]
      · simp [setEntry, lookupEntry, h, ih]

theorem lookupEntry_setEntry_ne {α : Type} (l : List (String × α)) {k k2 : String}
    (v : α) (h : k2 ≠ k) : lookupEntry (setEntry l k v) k2 = lookupEntry l k2 := by
  induction l with
  | nil => simp [setEntry, lookupEntry, Ne.symm h]
  | cons p rest ih =>
      obtain ⟨k1, v1⟩ := p
      by_cases h1 : k1 = k
      · subst h1
        simp [setEntry, lookupEntry, Ne.symm h]
      · simp only [setEntry, if_neg h1, lookupEntry]
        by_cases h2 : k1 = k2 <;> simp [h2, ih]

theorem lookupEntry_removeEntry_self {α : Type} (l : List (String × α)) (k : String) :
    lookupEntry (removeEntry l k) k = none := by
  induction l with
  | nil => simp [removeEntry, lookupEntry]
  | cons p rest ih =>
      obtain ⟨k1, v1⟩ := p
      by_cases h : k1 = k
      · simp [removeEntry, h, ih]
      · simp [removeEntry, lookupEntry, h, ih]

theorem lookupEntry_removeEntry_ne {α : Type} (l : List (String × α)) {k k2 : String}
    (h : k2 ≠ k) : lookupEntry (removeEntry l k) k2 = lookupEntry l k2 := by
  induction l with
  | nil => simp [removeEntry]
  | cons p rest ih =>
      obtain ⟨k1, v1⟩ := p
      by_cases h1 : k1 = k
      · subst h1
        simp [removeEntry, lookupEntry, Ne.symm h, ih]
      · simp only [removeEntry, if_neg h1, lookupEntry]
        by_cases h2 : k1 = k2 <;> simp [h2, ih]

theorem mem_setEntry {α : Type} {l : List (String × α)} {k : String} {v : α}
    {p : String × α} (hp : p ∈ setEntry l k v) : p = (k, v) ∨ p ∈ l := by
  induction l with
  | nil =>
      simp only [setEntry, List.mem_singleton] at hp
      exact Or.inl hp
  | cons q rest ih =>
      obtain ⟨k1, v1⟩ := q
      by_cases h : k1 = k
      · subst h
        simp only [setEntry, if_pos rfl] at hp
        cases hp with
        | head => exact Or.inl rfl
        | tail _ h2 => exact Or.inr (List.mem_cons_of_mem _ h2)
      · simp only [setEntry, if_neg h] at hp
        cases hp with
        | head => exact Or.inr (List.mem_cons_self _ _)
        | tail _ h1 =>
            rcases ih h1 with h2 | h2
            · exact Or.inl h2
            · exact Or.inr (List.mem_cons_of_mem _ h2)

theorem mem_removeEntry {α : Type} {l : List (String × α)} {k : String}
    {p : String × α} (hp : p ∈ removeEntry l k) : p ∈ l := by
  induction l with
  | nil =>
      simp only [removeEntry] at hp
      exact absurd hp (List.not_mem_nil p)
  | cons q rest ih =>
      obtain ⟨k1, v1⟩ := q
      by_cases h : k1 = k
      · simp only [removeEntry, if_pos h] at hp
        exact List.mem_cons_of_mem _ (ih hp)
      · simp only [removeEntry, if_neg h] at hp
        cases hp with
        | head => exact List.mem_cons_self _ _
        | tail _ h1 => exact List.mem_cons_of_mem _ (ih h1)

theorem not_mem_of_lookupEntry_eq_none {α : Type} {l : List (String × α)}
    {k : String} (h : lookupEntry l k = none) (v : α) : (k, v) ∉ l := by
  induction l with
  | nil => simp
  | cons q rest ih =>
      obtain ⟨k1, v1⟩ := q
      by_cases h1 : k1 = k
      · simp [lookupEntry, h1] at h
      · simp only [lookupEntry, if_neg h1] at h
        simp only [List.mem_cons, not_or]
        exact ⟨fun e => h1 (congrArg Prod.fst e).symm, ih h⟩

theorem vals_all_id_ne {l : List (String × User)} {C : String}
    (hwf : ∀ p ∈ l, (Prod.snd p).id = Prod.fst p)
    (h : lookupEntry l C = none) : ∀ u ∈ vals l, u.id ≠ C := by
  intro u hu hid
  rcases List.mem_map.mp hu with ⟨p, hpmem, hpu⟩
  have h1 : Prod.fst p = C := by rw [← hwf p hpmem, hpu, hid]
  apply not_mem_of_lookupEntry_eq_none h (Prod.snd p)
  have h2 : p = (C, Prod.snd p) := by
    obtain ⟨a, b⟩ := p
    simp only [Prod.fst] at h1
    rw [h1]
  rw [← h2]
  exact hpmem

theorem handleConnect_stores (s : ServerState) (sid : String) :
    (handleConnect s sid).1.users = s.users ∧
    (handleConnect s sid).1.userRooms = s.userRooms ∧
    (handleConnect s sid).1.typingUsers = s.typingUsers :=
  ⟨rfl, rfl, rfl⟩

theorem handleUserJoin_stores (s : ServerState) (sid username : String) :
    (handleUserJoin s sid username).1.users =
      setEntry s.users sid { username := username, id := sid } ∧
    (handleUserJoin s sid username).1.userRooms = setEntry s.userRooms sid "General" ∧
    (handleUserJoin s sid username).1.typingUsers = s.typingUsers :=
  ⟨rfl, rfl, rfl⟩

theorem handleJoinRoom_stores (s : ServerState) (sid room : String) :
    (handleJoinRoom s sid room).1.users = s.users ∧
    (handleJoinRoom s sid room).1.userRooms = setEntry s.userRooms sid room ∧
    (handleJoinRoom s sid room).1.typingUsers = s.typingUsers :=
  ⟨rfl, rfl, rfl⟩

theorem handleSendMessage_stores (s : ServerState) (sid msgText : String)
    (roomArg : Option String) (now : Nat) :
    (handleSendMessage s sid msgText roomArg now).1.users = s.users ∧
    (handleSendMessage s sid msgText roomArg now).1.userRooms = s.userRooms ∧
    (handleSendMessage s sid msgText roomArg now).1.typingUsers = s.typingUsers :=
  ⟨rfl, rfl, rfl⟩

theorem handlePrivateMessage_stores (s : ServerState) (sid toId msgText : String)
    (now : Nat) :
    (handlePrivateMessage s sid toId msgText now).1.users = s.users ∧
    (handlePrivateMessage s sid toId msgText now).1.userRooms = s.userRooms ∧
    (handlePrivateMessage s sid toId msgText now).1.typingUsers = s.typingUsers :=
  ⟨rfl, rfl, rfl⟩

theorem handleTyping_users (s : ServerState) (sid : String) (b : Bool) :
    (handleTyping s sid b).1.users = s.users ∧
    (handleTyping s sid b).1.userRooms = s.userRooms := by
  unfold handleTyping
  repeat' split
  all_goals exact ⟨rfl, rfl⟩

theorem handleTyping_typing_ne (s : ServerState) (sid : String) (b : Bool)
    {C : String} (hne : sid ≠ C) :
    lookupEntry (handleTyping s sid b).1.typingUsers C =
      lookupEntry s.typingUsers C := by
  unfold handleTyping
  repeat' split
  · rfl
  · exact lookupEntry_setEntry_ne _ _ (Ne.symm hne)
  · exact lookupEntry_removeEntry_ne _ (Ne.symm hne)

theorem handleReadMessage_stores (s : ServerState) (sid : String) (mid : Nat) :
    (handleReadMessage s sid mid).1.users = s.users ∧
    (handleReadMessage s sid mid).1.userRooms = s.userRooms ∧
    (handleReadMessage s sid mid).1.typingUsers = s.typingUsers := by
  unfold handleReadMessage
  repeat' split
  all_goals exact ⟨rfl, rfl, rfl⟩

theorem handleReactMessage_stores (s : ServerState) (sid : String) (mid : Nat)
    (reaction username : String) :
    (handleReactMessage s sid mid reaction username).1.users = s.users ∧
    (handleReactMessage s sid mid reaction username).1.userRooms = s.userRooms ∧
    (handleReactMessage s sid mid reaction username).1.typingUsers = s.typingUsers := by
  unfold handleReactMessage
  repeat' split
  all_goals exact ⟨rfl, rfl, rfl⟩

theorem handleDisconnect_stores (s : ServerState) (sid : String) :
    (handleDisconnect s sid).1.users = removeEntry s.users sid ∧
    (handleDisconnect s sid).1.userRooms = removeEntry s.userRooms sid ∧
    (handleDisconnect s sid).1.typingUsers = removeEntry s.typingUsers sid :=
  ⟨rfl, rfl, rfl⟩

theorem step_absent (s : ServerState) (e : Event) {C : String}
    (hne : Event.src e ≠ C) (hwf : WFUsers s)
    (hu : lookupEntry s.users C = none)
    (hr : lookupEntry s.userRooms C = none)
    (ht : lookupEntry s.typingUsers C = none) :
    WFUsers (step s e).1 ∧
    lookupEntry (step s e).1.users C = none ∧
    lookupEntry (step s e).1.userRooms C = none ∧
    lookupEntry (step s e).1.typingUsers C = none := by
  cases e with
  | connect sid => exact ⟨hwf, hu, hr, ht⟩
  | userJoin sid username =>
      refine ⟨?_, ?_, ?_, ht⟩
      · intro p hp
        rcases mem_setEntry hp with h1 | h1
        · subst h1
          rfl
        · exact hwf p h1
      · exact (lookupEntry_setEntry_ne _ _ (Ne.symm hne)).trans hu
      · exact (lookupEntry_setEntry_ne _ _ (Ne.symm hne)).trans hr
  | joinRoom sid room =>
      exact ⟨hwf, hu, (lookupEntry_setEntry_ne _ _ (Ne.symm hne)).trans hr, ht⟩
  | sendMessage sid msgText roomArg now => exact ⟨hwf, hu, hr, ht⟩
  | privateMessage sid toId msgText now => exact ⟨hwf, hu, hr, ht⟩
  | typing sid b =>
      obtain ⟨e1, e2⟩ := handleTyping_users s sid b
      refine ⟨?_, ?_, ?_, ?_⟩
      · show WFUsers (handleTyping s sid b).1
        unfold WFUsers
        rw [e1]
        exact hwf
      · show lookupEntry (handleTyping s sid b).1.users C = none
        rw [e1]
        exact hu
      · show lookupEntry (handleTyping s sid b).1.userRooms C = none
        rw [e2]
        exact hr
      · exact (handleTyping_typing_ne s sid b hne).trans ht
  | readMessage sid mid =>
      obtain ⟨e1, e2, e3⟩ := handleReadMessage_stores s sid mid
      refine ⟨?_, ?_, ?_, ?_⟩
      · show WFUsers (handleReadMessage s sid mid).1
        unfold WFUsers
        rw [e1]
        exact hwf
      · show lookupEntry (handleReadMessage s sid mid).1.users C = none
        rw [e1]
        exact hu
      · show lookupEntry (handleReadMessage s sid mid).1.userRooms C = none
        rw [e2]
        exact hr
      · show lookupEntry (handleReadMessage s sid mid).1.typingUsers C = none
        rw [e3]
        exact ht
  | reactMessage sid mid reaction username =>
      obtain ⟨e1, e2, e3⟩ := handleReactMessage_stores s sid mid reaction username
      refine ⟨?_, ?_, ?_, ?_⟩
      · show WFUsers (handleReactMessage s sid mid reaction username).1
        unfold WFUsers
        rw [e1]
        exact hwf
      · show lookupEntry (handleReactMessage s sid mid reaction username).1.users C = none
        rw [e1]
        exact hu
      · show lookupEntry (handleReactMessage s sid mid reaction username).1.userRooms C = none
        rw [e2]
        exact hr
      · show lookupEntry (handleReactMessage s sid mid reaction username).1.typingUsers C = none
        rw [e3]
        exact ht
  | disconnect sid =>
      refine ⟨?_, ?_, ?_, ?_⟩
      · intro p hp
        exact hwf p (mem_removeEntry hp)
      · exact (lookupEntry_removeEntry_ne _ (Ne.symm hne)).trans hu
      · exact (lookupEntry_removeEntry_ne _ (Ne.symm hne)).trans hr
      · exact (lookupEntry_removeEntry_ne _ (Ne.symm hne)).trans ht

theorem run_absent (es : List Event) (s : ServerState) {C : String}
    (hsrc : ∀ e ∈ es, Event.src e ≠ C) (hwf : WFUsers s)
    (hu : lookupEntry s.users C = none)
    (hr : lookupEntry s.userRooms C = none)
    (ht : lookupEntry s.typingUsers C = none) :
    WFUsers (run s es) ∧
    lookupEntry (run s es).users C = none ∧
    lookupEntry (run s es).userRooms C = none ∧
    lookupEntry (run s es).typingUsers C = none := by
  induction es generalizing s with
  | nil => exact ⟨hwf, hu, hr, ht⟩
  | cons e rest ih =>
      have h1 := step_absent s e (hsrc e (List.mem_cons_self _ _)) hwf hu hr ht
      exact ih (step s e).1 (fun e2 he2 => hsrc e2 (List.mem_cons_of_mem _ he2))
        h1.1 h1.2.1 h1.2.2.1 h1.2.2.2

/-- C1: the claim says message ids are unique and strictly increasing even
when two messages are appended within the same wall-clock millisecond.  The
code assigns `id: Date.now()`, so two `send_message` events processed at the
same millisecond (here `now = 1000`) yield two ledger entries with the same
id 1000: the id list is `[1000, 1000]`, neither unique (not `Nodup`) nor
strictly increasing (not `Pairwise (<)`). -/
theorem c1_ids_collide :
    ((run initState [Event.connect "A", Event.userJoin "A" "alice",
        Event.sendMessage "A" "first" none 1000,
        Event.sendMessage "A" "second" none 1000]).messages.map Message.id)
      = [1000, 1000] ∧
    ¬ ((run initState [Event.connect "A", Event.userJoin "A" "alice",
        Event.sendMessage "A" "first" none 1000,
        Event.sendMessage "A" "second" none 1000]).messages.map Message.id).Nodup ∧
    ¬ List.Pairwise (fun a b => a < b)
      ((run initState [Event.connect "A", Event.userJoin "A" "alice",
        Event.sendMessage "A" "first" none 1000,
        Event.sendMessage "A" "second" none 1000]).messages.map Message.id) := by
  decide

/-- C5: after `disconnect` for connection C the user registry, room
membership and typing tracker all drop C, the presence-list and typing-set
payloads broadcast by the disconnect exclude C, and along any continuation
of the trace in which no event originates from C (a disconnected socket
emits nothing) C stays absent from all three stores and from the presence
list every later broadcast is built from.  `WFUsers` records that every
stored user object carries the socket id it is keyed under, which
`user_join` guarantees. -/
theorem c5_disconnect_cleanup (s : ServerState) (C : String) (hwf : WFUsers s) :
    lookupEntry (handleDisconnect s C).1.users C = none ∧
    lookupEntry (handleDisconnect s C).1.userRooms C = none ∧
    lookupEntry (handleDisconnect s C).1.typingUsers C = none ∧
    (∀ l, (EmitTarget.all, EmitPayload.userList l) ∈ (handleDisconnect s C).2 →
      ∀ u ∈ l, u.id ≠ C) ∧
    (∀ l, (EmitTarget.all, EmitPayload.typingList l) ∈ (handleDisconnect s C).2 →
      l = vals (removeEntry s.typingUsers C)) ∧
    ∀ es : List Event, (∀ e ∈ es, Event.src e ≠ C) →
      lookupEntry (run (handleDisconnect s C).1 es).users C = none ∧
      lookupEntry (run (handleDisconnect s C).1 es).userRooms C = none ∧
      lookupEntry (run (handleDisconnect s C).1 es).typingUsers C = none ∧
      ∀ u ∈ vals (run (handleDisconnect s C).1 es).users, u.id ≠ C := by
  have hwf1 : WFUsers (handleDisconnect s C).1 := by
    intro p hp
    exact hwf p (mem_removeEntry hp)
  have hu1 : lookupEntry (handleDisconnect s C).1.users C = none :=
    lookupEntry_removeEntry_self _ _
  have hr1 : lookupEntry (handleDisconnect s C).1.userRooms C = none :=
    lookupEntry_removeEntry_self _ _
  have ht1 : lookupEntry (handleDisconnect s C).1.typingUsers C = none :=
    lookupEntry_removeEntry_self _ _
  refine ⟨hu1, hr1, ht1, ?_, ?_, ?_⟩
  · intro l hl
    have hl2 : l = vals (removeEntry s.users C) := by
      cases hlk : lookupEntry s.users C <;>
        simp [handleDisconnect, hlk] at hl <;> exact hl
    rw [hl2]
    exact vals_all_id_ne hwf1 hu1
  · intro l hl
    cases hlk : lookupEntry s.users C <;>
      simp [handleDisconnect, hlk] at hl <;> exact hl
  · intro es hsrc
    obtain ⟨h1, h2, h3, h4⟩ := run_absent es (handleDisconnect s C).1 hsrc hwf1 hu1 hr1 ht1
    exact ⟨h2, h3, h4, vals_all_id_ne h1 h2⟩

/-- A concrete session for the C5 witness: two joined users, one typing. -/
def c5sW : ServerState :=
  run initState [Event.connect "A", Event.userJoin "A" "alice",
    Event.connect "B", Event.userJoin "B" "bob", Event.typing "A" true]

/-- Witness for C5 at a concrete session: after A disconnects and B re-joins,
A is still absent from the user registry. -/
theorem c5_witness :
    lookupEntry (run (handleDisconnect c5sW "A").1 [Event.userJoin "B" "bob"]).users "A"
      = none := by
  have h := (c5_disconnect_cleanup c5sW "A" (by unfold WFUsers; decide)).2.2.2.2.2
    [Event.userJoin "B" "bob"] (by decide)
  exact h.1

/-- C8 counterexample: `user_join` for an already-registered connection id
does not fail with any duplicate-connection error; it silently overwrites
the stored registration (alice becomes bob). -/
theorem c8_counterexample :
    lookupEntry (run initState [Event.connect "A", Event.userJoin "A" "alice",
        Event.userJoin "A" "bob"]).users "A" = some { username := "bob", id := "A" } ∧
    lookupEntry (run initState [Event.connect "A", Event.userJoin "A" "alice",
        Event.userJoin "A" "bob"]).users "A" ≠ some { username := "alice", id := "A" } := by
  decide

/-- C8 amended: `user_join` never fails; whether or not the connection id is
already registered it stores the (possibly replacing) user object and
assigns the default room "General". -/
theorem c8_amended (s : ServerState) (sid username : String) :
    lookupEntry (handleUserJoin s sid username).1.users sid =
      some { username := username, id := sid } ∧
    lookupEntry (handleUserJoin s sid username).1.userRooms sid = some "General" := by
  constructor
  · exact lookupEntry_setEntry_self _ _ _
  · exact lookupEntry_setEntry_self _ _ _

/-- C9: stale references degrade to safe defaults or no-ops, never an
error: an unregistered sender yields sender "Anonymous" (both message
kinds), a missing membership with no explicit room argument resolves to
"General", typing and read events from unregistered connections do nothing,
and read/react events for an absent message id do nothing.  Totality of
every handler holds by construction of the model. -/
theorem c9_safe_defaults (s : ServerState) (sid reaction username msgText : String)
    (roomArg : Option String) (now mid : Nat) (b : Bool) :
    (lookupEntry s.users sid = none →
      (sendMsgObj s sid msgText roomArg now).sender = "Anonymous" ∧
      (privMsgObj s sid msgText now).sender = "Anonymous" ∧
      handleTyping s sid b = (s, []) ∧
      handleReadMessage s sid mid = (s, [])) ∧
    (lookupEntry s.userRooms sid = none → roomArg = none →
      sendRoom s sid roomArg = "General") ∧
    (findMsg s.messages mid = none →
      handleReadMessage s sid mid = (s, []) ∧
      handleReactMessage s sid mid reaction username = (s, [])) := by
  refine ⟨?_, ?_, ?_⟩
  · intro h
    refine ⟨by simp [sendMsgObj, jsOr, h], by simp [privMsgObj, jsOr, h], ?_, ?_⟩
    · simp [handleTyping, h]
    · cases hf : findMsg s.messages mid <;> simp [handleReadMessage, hf, h]
  · intro h1 h2
    simp [sendRoom, jsOr, h1, h2]
  · intro hf
    exact ⟨by simp [handleReadMessage, hf], by simp [handleReactMessage, hf]⟩

/-- Witness for C9 at a concrete input: reading an absent message id on the
initial state is a no-op. -/
theorem c9_witness : handleReadMessage initState "X" 0 = (initState, []) :=
  ((c9_safe_defaults initState "X" "r" "u" "m" none 0 0 true).1 rfl).2.2.2

/-- C10: a message from a connection absent from the user registry gets the
safe default sender "Anonymous", but its `readBy` is seeded with the absent
username (`undefined`, modelled `none`), not with "Anonymous": no actual
username is recorded as having read it. -/
theorem c10_anonymous_readBy (s : ServerState) (sid msgText : String)
    (roomArg : Option String) (now : Nat)
    (h : lookupEntry s.users sid = none) :
    (sendMsgObj s sid msgText roomArg now).sender = "Anonymous" ∧
    (sendMsgObj s sid msgText roomArg now).readBy = [none] ∧
    (privMsgObj s sid msgText now).sender = "Anonymous" ∧
    (privMsgObj s sid msgText now).readBy = [none] ∧
    (∀ u : String, some u ∉ (sendMsgObj s sid msgText roomArg now).readBy) ∧
    (∀ u : String, some u ∉ (privMsgObj s sid msgText now).readBy) := by
  refine ⟨by simp [sendMsgObj, jsOr, h], by simp [sendMsgObj, h],
    by simp [privMsgObj, jsOr, h], by simp [privMsgObj, h], ?_, ?_⟩ <;>
    intro u <;> simp [sendMsgObj, privMsgObj, h]

/-- Witness for C10 at a concrete input: the unregistered sender "X" yields
`readBy = [none]` on a room message from the initial state. -/
theorem c10_witness : (sendMsgObj initState "X" "hi" none 3).readBy = [none] :=
  (c10_anonymous_readBy initState "X" "hi" none 3 rfl).2.1

theorem foldl_pushBounded (msgs : List Message) :
    ∀ acc : List Message, acc.length ≤ 100 →
      msgs.foldl pushBounded acc = (acc ++ msgs).drop ((acc ++ msgs).length - 100) := by
  induction msgs with
  | nil =>
      intro acc h
      simp [Nat.sub_eq_zero_of_le h]
  | cons m ms ih =>
      intro acc h
      by_cases h1 : acc.length + 1 ≤ 100
      · have hpb : pushBounded acc m = acc ++ [m] := by
          have h2 : ¬ ((acc ++ [m]).length > 100) := by
            simp only [List.length_append, List.length_singleton]
            omega
          simp only [pushBounded, if_neg h2]
        rw [List.foldl_cons, hpb,
          ih (acc ++ [m]) (by simp only [List.length_append, List.length_singleton]; omega)]
        have e1 : (acc ++ [m]) ++ ms = acc ++ m :: ms := by simp
        rw [e1]
      · have h100 : acc.length = 100 := by omega
        obtain ⟨a, as, rfl⟩ : ∃ a as, acc = a :: as := by
          cases acc with
          | nil => simp at h100
          | cons a as => exact ⟨a, as, rfl⟩
        have hlen : as.length = 99 := by
          simp only [List.length_cons] at h100
          omega
        have hpb : pushBounded (a :: as) m = as ++ [m] := by
          have h2 : ((a :: as) ++ [m]).length > 100 := by
            simp only [List.length_append, List.length_cons, List.length_singleton]
            omega
          simp only [pushBounded, if_pos h2]
          rfl
        rw [List.foldl_cons, hpb,
          ih (as ++ [m]) (by simp only [List.length_append, List.length_singleton]; omega)]
        have e1 : (as ++ [m]) ++ ms = as ++ m :: ms := by simp
        rw [e1]
        have e2 : (as ++ m :: ms).length - 100 = ms.length := by
          simp only [List.length_append, List.length_cons, hlen]
          omega
        have e3 : ((a :: as) ++ m :: ms).length - 100 = ms.length + 1 := by
          simp only [List.length_append, List.length_cons, hlen]
          omega
        rw [e2, e3]
        rw [show ((a :: as) ++ m :: ms) = a :: (as ++ m :: ms) from rfl,
          List.drop_succ_cons]

/-- C3: the ledger is bounded at 100 with FIFO eviction: appending 150
messages (with pairwise distinct ids, as intended) into an empty ledger
leaves exactly the most recent 100, and `findById` (= `messages.find`) on
each of the 50 oldest returns nothing. -/
theorem c3_capacity (msgs : List Message) (h150 : msgs.length = 150)
    (hids : (msgs.map Message.id).Nodup) :
    msgs.foldl pushBounded [] = msgs.drop 50 ∧
    (msgs.foldl pushBounded []).length = 100 ∧
    ((msgs.take 50).all fun m => (findMsg (msgs.foldl pushBounded []) m.id).isNone)
      = true := by
  have hdrop : msgs.foldl pushBounded [] = msgs.drop 50 := by
    have h0 := foldl_pushBounded msgs [] (by simp)
    simp only [List.nil_append] at h0
    rw [h0, h150]
  refine ⟨hdrop, ?_, ?_⟩
  · rw [hdrop, List.length_drop, h150]
  · rw [List.all_eq_true]
    intro m hm
    have hsplit : msgs.take 50 ++ msgs.drop 50 = msgs := List.take_append_drop 50 msgs
    have hnd : ((msgs.take 50).map Message.id ++ (msgs.drop 50).map Message.id).Nodup := by
      rw [← List.map_append, hsplit]
      exact hids
    have hdisj := (List.nodup_append.mp hnd).2.2
    have hnone : findMsg (msgs.drop 50) m.id = none := by
      apply List.find?_eq_none.mpr
      intro x hx
      simp only [decide_eq_true_eq]
      intro hxm
      exact hdisj (List.mem_map_of_mem Message.id hm)
        (List.mem_map.mpr ⟨x, hx, hxm⟩)
    rw [hdrop, hnone]
    rfl

/-- A simple distinct-id message for the C3 witness. -/
def mkMsg (i : Nat) : Message :=
  { id := i, sender := "u", senderId := "c", message := "m", timestamp := i,
    room := some "General", isPrivate := false, readBy := [], reactions := [] }

/-- Witness for C3 at a concrete input: 150 sequentially numbered messages
leave exactly the last 100 in the ledger. -/
theorem c3_witness :
    ((List.range 150).map mkMsg).foldl pushBounded []
      = ((List.range 150).map mkMsg).drop 50 := by
  have h1 : ((List.range 150).map mkMsg).length = 150 := by simp
  have h2 : (((List.range 150).map mkMsg).map Message.id).Nodup := by
    have h3 : ((List.range 150).map mkMsg).map Message.id = List.range 150 := by
      rw [List.map_map]
      have h4 : Message.id ∘ mkMsg = fun i => i := by
        funext i
        rfl
      rw [h4]
      exact List.map_id _
    rw [h3]
    exact List.nodup_range 150
  exact (c3_capacity _ h1 h2).1

theorem findMsg_updateFirst (l : List Message) (mid : Nat) (f : Message → Message)
    (hid : ∀ m, (f m).id = m.id) :
    findMsg (updateFirst l mid f) mid = (findMsg l mid).map f := by
  induction l with
  | nil => rfl
  | cons m rest ih =>
      by_cases h : m.id = mid
      · have h1 : updateFirst (m :: rest) mid f = f m :: rest := by
          simp [updateFirst, h]
        have h2 : findMsg (f m :: rest) mid = some (f m) :=
          List.find?_cons_of_pos _ (by simp [hid m, h])
        have h3 : findMsg (m :: rest) mid = some m :=
          List.find?_cons_of_pos _ (by simp [h])
        rw [h1, h2, h3]
        rfl
      · have h1 : updateFirst (m :: rest) mid f = m :: updateFirst rest mid f := by
          simp [updateFirst, h]
        have h2 : findMsg (m :: updateFirst rest mid f) mid
            = findMsg (updateFirst rest mid f) mid :=
          List.find?_cons_of_neg _ (by simp [h])
        have h3 : findMsg (m :: rest) mid = findMsg rest mid :=
          List.find?_cons_of_neg _ (by simp [h])
        rw [h1, h2, h3, ih]

theorem handleReadMessage_noop (s : ServerState) (sid : String) (mid : Nat)
    (msg : Message) (u : String)
    (hf : findMsg s.messages mid = some msg)
    (hl2 : (lookupEntry s.users sid).map User.username = some u)
    (hune : u ≠ "") (hmem : some u ∈ msg.readBy) :
    handleReadMessage s sid mid = (s, []) := by
  unfold handleReadMessage
  rw [hf, hl2]
  simp [hune, hmem]

theorem handleReadMessage_update (s : ServerState) (sid : String) (mid : Nat)
    (msg : Message) (u : String)
    (hf : findMsg s.messages mid = some msg)
    (hl2 : (lookupEntry s.users sid).map User.username = some u)
    (hune : u ≠ "") (hmem : some u ∉ msg.readBy) :
    (handleReadMessage s sid mid).1 =
      { s with messages := (updateFirst s.messages mid
          (fun m => { m with readBy := m.readBy ++ [some u] })) } := by
  unfold handleReadMessage
  rw [hf, hl2]
  simp only [if_neg hune, if_neg hmem]
  repeat' split
  all_goals rfl

/-- C6: `read_message` is idempotent per username: for a registered reader
with a truthy username, if the message is present (and, as on every
reachable state, the reader occurs at most once in its `readBy`), reading
it twice leaves exactly one `readBy` entry for that username; if the
message is absent the event is a no-op. -/
theorem c6_read_idempotent (s : ServerState) (sid : String) (mid : Nat)
    (uname : String)
    (hreg : (lookupEntry s.users sid).map User.username = some uname)
    (hne : uname ≠ "") :
    (findMsg s.messages mid = none → handleReadMessage s sid mid = (s, [])) ∧
    (∀ msg, findMsg s.messages mid = some msg →
      msg.readBy.count (some uname) ≤ 1 →
      (findMsg (readTwice s sid mid).messages mid).map
        (fun m => m.readBy.count (some uname)) = some 1) := by
  constructor
  · intro hf
    unfold handleReadMessage
    rw [hf]
  · intro msg hf hcount
    by_cases hmem : some uname ∈ msg.readBy
    · have h1 := handleReadMessage_noop s sid mid msg uname hf hreg hne hmem
      have hrt : readTwice s sid mid = s := by
        unfold readTwice
        rw [h1]
        show (handleReadMessage s sid mid).1 = s
        rw [h1]
      have hcnt : msg.readBy.count (some uname) = 1 := by
        have hpos : 0 < msg.readBy.count (some uname) := List.count_pos_iff.mpr hmem
        omega
      rw [hrt, hf]
      simp [hcnt]
    · have h1 := handleReadMessage_update s sid mid msg uname hf hreg hne hmem
      have hfid : ∀ m : Message,
          ((fun (m : Message) => { m with readBy := m.readBy ++ [some uname] }) m).id
            = m.id :=
        fun m => rfl
      have hf1 : findMsg (handleReadMessage s sid mid).1.messages mid =
          some ({ msg with readBy := msg.readBy ++ [some uname] } : Message) := by
        rw [h1]
        show findMsg (updateFirst s.messages mid
          (fun m => { m with readBy := m.readBy ++ [some uname] })) mid = _
        rw [findMsg_updateFirst _ _ _ hfid, hf]
        rfl
      have hmem1 : some uname ∈ ({ msg with readBy := msg.readBy ++ [some uname] } : Message).readBy := by
        simp
      have hreg1 : (lookupEntry (handleReadMessage s sid mid).1.users sid).map User.username
          = some uname := by
        rw [(handleReadMessage_stores s sid mid).1]
        exact hreg
      have h2 := handleReadMessage_noop (handleReadMessage s sid mid).1 sid mid
        { msg with readBy := msg.readBy ++ [some uname] } uname hf1 hreg1 hne hmem1
      have hrt : readTwice s sid mid = (handleReadMessage s sid mid).1 := by
        unfold readTwice
        rw [h2]
      have hcnt : (msg.readBy ++ [some uname]).count (some uname) = 1 := by
        rw [List.count_append]
        have h0 : msg.readBy.count (some uname) = 0 := List.count_eq_zero.mpr hmem
        simp [h0]
      rw [hrt, hf1]
      simpa using hcnt

/-- A concrete session for the C6 witness: alice and bob joined, alice sent
a room message with id 5. -/
def c6sW : ServerState :=
  run initState [Event.connect "A", Event.userJoin "A" "alice",
    Event.connect "B", Event.userJoin "B" "bob",
    Event.sendMessage "A" "hi" none 5]

/-- The message alice sent in the C6 witness session. -/
def c6mW : Message :=
  { id := 5, sender := "alice", senderId := "A", message := "hi",
    timestamp := 5, room := some "General", isPrivate := false,
    readBy := [some "alice"], reactions := [] }

/-- Witness for C6 at a concrete input: bob reading message 5 twice yields
exactly one "bob" entry in its `readBy`. -/
theorem c6_witness :
    (findMsg (readTwice c6sW "B" 5).messages 5).map
      (fun m => m.readBy.count (some "bob")) = some 1 := by
  have h := (c6_read_idempotent c6sW "B" 5 "bob" (by decide) (by decide)).2
  exact h c6mW (by decide) (by decide)

theorem handleReactMessage_messages (s : ServerState) (sid : String) (mid : Nat)
    (reaction username : String) (msg : Message)
    (hf : findMsg s.messages mid = some msg) :
    (handleReactMessage s sid mid reaction username).1.messages =
      updateFirst s.messages mid
        (fun (m : Message) =>
          { m with reactions := reactUpdate m.reactions reaction username }) := by
  unfold handleReactMessage
  rw [hf]
  repeat' split
  all_goals first
  | rfl
  | simp_all

theorem count_reactUpdate (rs : List (String × List String)) (r u : String)
    (h : ((lookupEntry rs r).getD []).count u ≤ 1) :
    ((lookupEntry (reactUpdate rs r u) r).getD []).count u = 1 := by
  unfold reactUpdate
  rw [lookupEntry_setEntry_self]
  by_cases hm : u ∈ (lookupEntry rs r).getD []
  · have hpos : 0 < ((lookupEntry rs r).getD []).count u := List.count_pos_iff.mpr hm
    simp only [if_pos hm, Option.getD_some]
    omega
  · simp only [if_neg hm, Option.getD_some]
    rw [List.count_append, List.count_eq_zero.mpr hm]
    simp

/-- C7: `react_message` is idempotent per (symbol, username): if the message
is present (and, as on every reachable state, the username occurs at most
once under the symbol), reacting twice with the same symbol and username
leaves exactly one occurrence of the username under that symbol; if the
message is absent the event is a no-op. -/
theorem c7_react_idempotent (s : ServerState) (sid : String) (mid : Nat)
    (reaction username : String) :
    (findMsg s.messages mid = none →
      handleReactMessage s sid mid reaction username = (s, [])) ∧
    (∀ msg, findMsg s.messages mid = some msg →
      ((lookupEntry msg.reactions reaction).getD []).count username ≤ 1 →
      (findMsg (reactTwice s sid mid reaction username).messages mid).map
        (fun m => ((lookupEntry m.reactions reaction).getD []).count username)
        = some 1) := by
  constructor
  · intro hf
    unfold handleReactMessage
    rw [hf]
  · intro msg hf hcount
    have hgid : ∀ m : Message,
        ((fun (m : Message) =>
          { m with reactions := reactUpdate m.reactions reaction username }) m).id
          = m.id :=
      fun m => rfl
    have hf1 : findMsg (handleReactMessage s sid mid reaction username).1.messages mid =
        some ({ msg with reactions := reactUpdate msg.reactions reaction username }
          : Message) := by
      rw [handleReactMessage_messages s sid mid reaction username msg hf,
        findMsg_updateFirst _ _ _ hgid, hf]
      rfl
    have hc1 : ((lookupEntry (reactUpdate msg.reactions reaction username) reaction).getD
        []).count username = 1 := count_reactUpdate _ _ _ hcount
    have hf2 : findMsg (reactTwice s sid mid reaction username).messages mid =
        some ({ msg with reactions := (reactUpdate
          (reactUpdate msg.reactions reaction username) reaction username) } : Message) := by
      unfold reactTwice
      rw [handleReactMessage_messages (handleReactMessage s sid mid reaction username).1
          sid mid reaction username _ hf1,
        findMsg_updateFirst _ _ _ hgid, hf1]
      rfl
    have hc2 : ((lookupEntry (reactUpdate (reactUpdate msg.reactions reaction username)
        reaction username) reaction).getD []).count username = 1 :=
      count_reactUpdate _ _ _ (by omega)
    rw [hf2]
    simpa using hc2

/-- A concrete session for the C7 witness: alice and bob joined, alice sent
a room message with id 5. -/
def c7sW : ServerState :=
  run initState [Event.connect "A", Event.userJoin "A" "alice",
    Event.connect "B", Event.userJoin "B" "bob",
    Event.sendMessage "A" "hi" none 5]

/-- The message alice sent in the C7 witness session. -/
def c7mW : Message :=
  { id := 5, sender := "alice", senderId := "A", message := "hi",
    timestamp := 5, room := some "General", isPrivate := false,
    readBy := [some "alice"], reactions := [] }

/-- Witness for C7 at a concrete input: bob reacting twice with the same
symbol yields exactly one "bob" occurrence under it. -/
theorem c7_witness :
    (findMsg (reactTwice c7sW "B" 5 "thumb" "bob").messages 5).map
      (fun m => ((lookupEntry m.reactions "thumb").getD []).count "bob") = some 1 := by
  have h := (c7_react_idempotent c7sW "B" 5 "thumb" "bob").2
  exact h c7mW (by decide) (by decide)

theorem filter_decide_eq (l : List String) (hnd : l.Nodup) (t : String) :
    l.filter (fun c => decide (c = t)) = if t ∈ l then [t] else [] := by
  induction l with
  | nil => simp
  | cons a as ih =>
      rw [List.nodup_cons] at hnd
      by_cases h : a = t
      · subst h
        have h2 : as.filter (fun c => decide (c = a)) = [] := by
          apply List.filter_eq_nil_iff.mpr
          intro x hx
          simp only [decide_eq_true_eq]
          intro he
          exact hnd.1 (he ▸ hx)
        simp [List.filter_cons, h2]
      · have h3 : (t ∈ a :: as) = (t ∈ as) := by
          simp [List.mem_cons, Ne.symm h]
        simp only [List.filter_cons, decide_eq_true_eq, h, if_false, ih hnd.2, h3]

theorem targets_toRoom_synced (s : ServerState) (hsync : Synced s) (R : String)
    (hno : ∀ c ∈ s.connected, c ≠ R) :
    resolveTargets s (EmitTarget.toRoom R) =
      s.connected.filter (fun c => decide (lookupEntry s.userRooms c = some R)) := by
  apply List.filter_congr
  intro c hc
  have hs : subsOf s c = canonSubs s c := hsync c hc
  rw [decide_eq_decide, hs]
  unfold canonSubs
  cases hlk : lookupEntry s.userRooms c with
  | some r =>
      constructor
      · intro hmem
        rcases List.mem_cons.mp hmem with h1 | h1
        · exact absurd h1.symm (hno c hc)
        · rw [List.mem_singleton.mp h1]
      · intro he
        have : r = R := Option.some.inj he
        rw [this]
        exact List.mem_cons_of_mem _ (List.mem_singleton.mpr rfl)
  | none =>
      constructor
      · intro hmem
        exact absurd (List.mem_singleton.mp hmem).symm (hno c hc)
      · intro he
        exact absurd he (by simp)

theorem targets_socketTo_synced (s : ServerState) (hsync : Synced s)
    (sid toId : String) (hts : toId ≠ sid)
    (hno : ∀ c ∈ s.connected, lookupEntry s.userRooms c ≠ some toId) :
    resolveTargets s (EmitTarget.socketTo sid toId) =
      s.connected.filter (fun c => decide (c = toId)) := by
  apply List.filter_congr
  intro c hc
  have hs : subsOf s c = canonSubs s c := hsync c hc
  by_cases he : c = toId
  · subst he
    have hmem : c ∈ subsOf s c := by
      rw [hs]
      unfold canonSubs
      cases lookupEntry s.userRooms c with
      | some r => exact List.mem_cons_self _ _
      | none => exact List.mem_cons_self _ _
    simp [hmem, hts]
  · have hnm : toId ∉ subsOf s c := by
      rw [hs]
      unfold canonSubs
      cases hlk : lookupEntry s.userRooms c with
      | some r =>
          intro hmem
          rcases List.mem_cons.mp hmem with h1 | h1
          · exact he h1.symm
          · exact hno c hc (by rw [hlk, List.mem_singleton.mp h1])
      | none =>
          intro hmem
          exact he (List.mem_singleton.mp hmem).symm
    simp [hnm, he]

/-- The trace refuting C2 as stated: connection A registers, switches to
room "Tech", then registers again — `user_join` subscribes A to "General"
without leaving "Tech", so A's socket.io subscriptions and the membership
map disagree.  B then joins "Tech" and sends a message there. -/
def c2Trace : List Event :=
  [Event.connect "A", Event.userJoin "A" "alice", Event.joinRoom "A" "Tech",
   Event.userJoin "A" "alice", Event.connect "B", Event.userJoin "B" "bob",
   Event.joinRoom "B" "Tech"]

/-- C2 counterexample: after `c2Trace`, B's message resolves to room "Tech"
and is delivered to both A and B, although A's current membership is
"General" — a connection in another room receives the message, refuting the
claim that delivery is exactly the membership set of the resolved room. -/
theorem c2_counterexample :
    sendRoom (run initState c2Trace) "B" none = "Tech" ∧
    lookupEntry (run initState c2Trace).userRooms "A" = some "General" ∧
    resolveTargets (handleSendMessage (run initState c2Trace) "B" "hi" none 7).1
      (EmitTarget.toRoom (sendRoom (run initState c2Trace) "B" none)) = ["A", "B"] ∧
    ("General" : String) ≠ "Tech" := by
  decide

/-- C2 amended: for a registered sender in a state whose socket.io
subscriptions agree with the membership map (as holds whenever every
connection registered at most once, e.g. on the documented connection
lifecycle) and whose resolved room name is not also some connection id, the
resolved room follows the chain explicit nonempty argument, else nonempty
membership, else "General"; `readBy` is exactly the sender's username; and
the single room emit reaches exactly the connections whose membership is
the resolved room at processing time. -/
theorem c2_amended (s : ServerState) (sid uname msgText : String)
    (roomArg : Option String) (now : Nat)
    (hreg : (lookupEntry s.users sid).map User.username = some uname)
    (hsync : Synced s)
    (hno : ∀ c ∈ s.connected, c ≠ sendRoom s sid roomArg) :
    ((∀ r, roomArg = some r → r ≠ "" → sendRoom s sid roomArg = r) ∧
     (roomArg = none → ∀ r, lookupEntry s.userRooms sid = some r → r ≠ "" →
        sendRoom s sid roomArg = r) ∧
     (roomArg = none → lookupEntry s.userRooms sid = none →
        sendRoom s sid roomArg = "General")) ∧
    (sendMsgObj s sid msgText roomArg now).readBy = [some uname] ∧
    (handleSendMessage s sid msgText roomArg now).2 =
      [(EmitTarget.toRoom (sendRoom s sid roomArg),
        EmitPayload.receiveMessage (sendMsgObj s sid msgText roomArg now))] ∧
    resolveTargets (handleSendMessage s sid msgText roomArg now).1
        (EmitTarget.toRoom (sendRoom s sid roomArg)) =
      s.connected.filter
        (fun c => decide (lookupEntry s.userRooms c = some (sendRoom s sid roomArg))) := by
  refine ⟨⟨?_, ?_, ?_⟩, ?_, rfl, ?_⟩
  · intro r hr hne2
    simp [sendRoom, jsOr, hr, hne2]
  · intro h0 r hr hne2
    simp [sendRoom, jsOr, h0, hr, hne2]
  · intro h0 h1
    simp [sendRoom, jsOr, h0, h1]
  · show [(lookupEntry s.users sid).map User.username] = [some uname]
    rw [hreg]
  · have heq : resolveTargets (handleSendMessage s sid msgText roomArg now).1
        (EmitTarget.toRoom (sendRoom s sid roomArg)) =
        resolveTargets s (EmitTarget.toRoom (sendRoom s sid roomArg)) := rfl
    rw [heq, targets_toRoom_synced s hsync _ hno]

/-- A concrete session for the C2 witness: alice in "General", bob moved to
"Tech". -/
def c2sW : ServerState :=
  run initState [Event.connect "A", Event.userJoin "A" "alice",
    Event.connect "B", Event.userJoin "B" "bob", Event.joinRoom "B" "Tech"]

/-- Witness for the amended C2 at a concrete input: alice's room message is
delivered exactly to the connections whose membership is its resolved
room. -/
theorem c2_witness :
    resolveTargets (handleSendMessage c2sW "A" "hi" none 9).1
        (EmitTarget.toRoom (sendRoom c2sW "A" none)) =
      c2sW.connected.filter
        (fun c => decide (lookupEntry c2sW.userRooms c = some (sendRoom c2sW "A" none))) := by
  have h := c2_amended c2sW "A" "alice" "hi" none 9 (by decide)
    (by unfold Synced; decide) (by decide)
  exact h.2.2.2

/-- The trace refuting C4 as stated: connection E joins a room whose name
equals another socket's id "T"; the `private_message` delivery to "T" is a
room emit and so also reaches E. -/
def c4Trace : List Event :=
  [Event.connect "E", Event.joinRoom "E" "T", Event.connect "T",
   Event.connect "S", Event.userJoin "S" "alice"]

/-- C4 counterexample: after `c4Trace`, a private message from S to the
connection id "T" is delivered to three connections — E (subscribed to the
room named "T"), T, and the sender S — refuting the claim that exactly the
sender and the recipient receive it. -/
theorem c4_counterexample :
    resolveTargets (handlePrivateMessage (run initState c4Trace) "S" "T" "psst" 9).1
      (EmitTarget.socketTo "S" "T") = ["E", "T"] ∧
    resolveTargets (handlePrivateMessage (run initState c4Trace) "S" "T" "psst" 9).1
      (EmitTarget.toSelf "S") = ["S"] ∧
    ("E" : String) ≠ "S" ∧ ("E" : String) ≠ "T" := by
  decide

/-- C4 amended: for a registered sender S in a synced state with no
duplicate connections and no connection whose membership room is named by
the recipient id (the normal situation, since room names and socket ids do
not collide), the private message is built private with `readBy` exactly
the sender's username, appended to the bounded ledger, and delivered to
exactly the recipient (dropped silently when the recipient is not
connected) plus the sender's own echo; no queuing or retry exists. -/
theorem c4_amended (s : ServerState) (sid toId uname msgText : String) (now : Nat)
    (hreg : (lookupEntry s.users sid).map User.username = some uname)
    (hsync : Synced s)
    (hnd : s.connected.Nodup)
    (hconn : sid ∈ s.connected)
    (hts : toId ≠ sid)
    (hno : ∀ c ∈ s.connected, lookupEntry s.userRooms c ≠ some toId) :
    (privMsgObj s sid msgText now).isPrivate = true ∧
    (privMsgObj s sid msgText now).readBy = [some uname] ∧
    (handlePrivateMessage s sid toId msgText now).1.messages =
      pushBounded s.messages (privMsgObj s sid msgText now) ∧
    (handlePrivateMessage s sid toId msgText now).2 =
      [(EmitTarget.socketTo sid toId,
        EmitPayload.privateMessage (privMsgObj s sid msgText now)),
       (EmitTarget.toSelf sid,
        EmitPayload.privateMessage (privMsgObj s sid msgText now))] ∧
    resolveTargets (handlePrivateMessage s sid toId msgText now).1
        (EmitTarget.socketTo sid toId) =
      (if toId ∈ s.connected then [toId] else []) ∧
    resolveTargets (handlePrivateMessage s sid toId msgText now).1
        (EmitTarget.toSelf sid) = [sid] := by
  refine ⟨rfl, ?_, rfl, rfl, ?_, ?_⟩
  · show [(lookupEntry s.users sid).map User.username] = [some uname]
    rw [hreg]
  · have heq : resolveTargets (handlePrivateMessage s sid toId msgText now).1
        (EmitTarget.socketTo sid toId) =
        resolveTargets s (EmitTarget.socketTo sid toId) := rfl
    rw [heq, targets_socketTo_synced s hsync sid toId hts hno,
      filter_decide_eq s.connected hnd toId]
  · have heq : resolveTargets (handlePrivateMessage s sid toId msgText now).1
        (EmitTarget.toSelf sid) = resolveTargets s (EmitTarget.toSelf sid) := rfl
    have h1 : resolveTargets s (EmitTarget.toSelf sid) =
        s.connected.filter (fun c => decide (c = sid)) := rfl
    rw [heq, h1, filter_decide_eq s.connected hnd sid, if_pos hconn]

/-- A concrete session for the C4 witness: alice and bob registered. -/
def c4sW : ServerState :=
  run initState [Event.connect "S", Event.userJoin "S" "alice",
    Event.connect "T", Event.userJoin "T" "bob"]

/-- Witness for the amended C4 at a concrete input: the private send from S
reaches exactly the connected recipient T. -/
theorem c4_witness :
    resolveTargets (handlePrivateMessage c4sW "S" "T" "psst" 9).1
        (EmitTarget.socketTo "S" "T") =
      (if ("T" : String) ∈ c4sW.connected then ["T"] else []) := by
  have h := c4_amended c4sW "S" "T" "alice" "psst" 9 (by decide)
    (by unfold Synced; decide) (by decide) (by decide) (by decide) (by decide)
  exact h.2.2.2.2.1

end ChatServer
